import Mathlib

/-!
Verification of the MAP unigram estimator (`cp1/src/MAPEstimator.py`).

The estimator is shallowly embedded: the `MAPEstimator` class becomes a
structure, its mutable state (`count_V`, `total_count`) is threaded
explicitly, Python exceptions become an explicit error type, and numpy
float arithmetic is carried out in exact rationals (`ℚ`).  The
`Vocabulary` collaborator is not part of the sources; it is modelled from
the specification of its interface (`size`, `get_word_id`).
-/

set_option autoImplicit false

namespace MAPSpec

/-- Errors the Python code can raise, one constructor per distinct
exception site: `ValueError` for an invalid MAP hyperparameter,
`KeyError` for a word missing from the vocabulary, `TypeError` from
iterating `count_V = None` before any `fit`, and `ZeroDivisionError`
from `score` dividing by the length of an empty list. -/
inductive MAPError where
  | invalidMAP : MAPError
  | unknownWord : MAPError
  | notFitted : MAPError
  | zeroDivision : MAPError
deriving DecidableEq, Repr

/-- Modelled from the spec: the `Vocabulary` collaborator (its source is
not in the repository snapshot).  Per the spec it is an immutable
bijection-like structure over a fixed set of distinct words, with a
stable integer identifier per word in `[0, size)`. -/
structure Vocabulary where
  words : List String
  nodup : words.Nodup

/-- Modelled from the spec: `size` is the total number of distinct
vocabulary words. -/
def Vocabulary.size (v : Vocabulary) : Nat := v.words.length

/-- Position of the first occurrence of a word in a word list, if any. -/
def lookupId : List String → String → Option Nat
  | [], _ => none
  | w :: ws, x => if w = x then some 0 else (lookupId ws x).map (· + 1)

/-- Modelled from the spec: `get_word_id(word)` maps a word to its stable
integer id in `[0, size)` and fails with a "word not found" error
(modelled as `none`) if the word is unknown. -/
def Vocabulary.get_word_id (v : Vocabulary) (w : String) : Option Nat :=
  lookupId v.words w

/-- State of a `MAPEstimator` instance: the shared vocabulary, the
Dirichlet concentration `alpha` (a Python float, embedded as `ℚ`), and
the fit state `total_count` / `count_V` (`none` standing for Python's
`None` before the first `fit`). -/
structure MAPEstimator where
  vocab : Vocabulary
  alpha : ℚ
  total_count : Nat
  count_V : Option (List Nat)

/-- `MAPEstimator.__init__`: stores `vocab` and `alpha`, sets
`total_count = 0` and `count_V = None`. -/
def MAPEstimator.init (vocab : Vocabulary) (alpha : ℚ) : MAPEstimator :=
  { vocab := vocab, alpha := alpha, total_count := 0, count_V := none }

/-- `count_V[id] += 1`: increment the entry at index `id` (out-of-range
indices cannot occur, as ids lie in `[0, size)`). -/
def incAt : List Nat → Nat → List Nat
  | [], _ => []
  | c :: cs, 0 => (c + 1) :: cs
  | c :: cs, n + 1 => c :: incAt cs n

/-- The loop body of `fit`: for each word, `total_count` is incremented
first, then the word id is looked up and the corresponding count slot is
incremented.  A failed lookup raises `KeyError`, aborting the loop with
the counts and (already incremented) total accumulated so far — exactly
the partial state the Python object is left with. -/
def fitLoop (vocab : Vocabulary) : List String → List Nat → Nat → List Nat × Nat × Option MAPError
  | [], cv, tc => (cv, tc, none)
  | w :: ws, cv, tc =>
    match vocab.get_word_id w with
    | none => (cv, tc + 1, some .unknownWord)
    | some id => fitLoop vocab ws (incAt cv id) (tc + 1)

/-- `MAPEstimator.fit`: reset `count_V` to `vocab.size` zeros and
`total_count` to 0, then run the counting loop.  Returns the resulting
estimator state together with the error raised, if any (the state is
meaningful even on error, reflecting Python's in-place mutation). -/
def MAPEstimator.fit (est : MAPEstimator) (word_list : List String) : MAPEstimator × Option MAPError :=
  let r := fitLoop est.vocab word_list (List.replicate est.vocab.size 0) 0
  ({ est with count_V := some r.1, total_count := r.2.1 }, r.2.2)

/-- `MAPEstimator.predict_proba`: check MAP existence
(`all_vocab_seen or alpha > 1`), raising `ValueError` if it fails; then
look up the word id, raising `KeyError` if the word is unknown; finally
return `(count_V[id] + alpha - 1) / (total_count + size * (alpha - 1))`.
With `count_V = None` the Python comprehension on line 97 raises
`TypeError`, modelled as `notFitted`. -/
def MAPEstimator.predict_proba (est : MAPEstimator) (word : String) : Except MAPError ℚ :=
  match est.count_V with
  | none => .error .notFitted
  | some cv =>
    if (cv.filter (fun i => 0 < i)).length = est.vocab.size ∨ 1 < est.alpha then
      match est.vocab.get_word_id word with
      | none => .error .unknownWord
      | some word_id =>
        .ok ((cv.getD word_id 0 + est.alpha - 1) /
          (est.total_count + est.vocab.size * (est.alpha - 1)))
    else
      .error .invalidMAP

instance instDecEqExcept {ε α : Type} [DecidableEq ε] [DecidableEq α] : DecidableEq (Except ε α) := fun x y =>
  match x, y with
  | .ok a, .ok b =>
    if h : a = b then isTrue (by rw [h]) else isFalse (fun hh => by cases hh; exact h rfl)
  | .error e, .error f =>
    if h : e = f then isTrue (by rw [h]) else isFalse (fun hh => by cases hh; exact h rfl)
  | .ok _, .error _ => isFalse (fun hh => by cases hh)
  | .error _, .ok _ => isFalse (fun hh => by cases hh)

/-- The probability `predict_proba` yields on success (0 on error); a
convenience for stating sums of probabilities. -/
def probaOf (est : MAPEstimator) (w : String) : ℚ :=
  match est.predict_proba w with
  | .ok p => p
  | .error _ => 0

/-- The loop body of `score`, accumulating `total_log_proba`; the
logarithm is abstracted as an arbitrary function `lg : ℚ → ℚ` since
`np.log` computes a transcendental real.  The first `predict_proba`
error aborts the loop and propagates. -/
def scoreLoop (lg : ℚ → ℚ) (est : MAPEstimator) : List String → ℚ → Except MAPError ℚ
  | [], acc => .ok acc
  | w :: ws, acc =>
    match est.predict_proba w with
    | .error e => .error e
    | .ok p => scoreLoop lg est ws (acc + lg p)

/-- `MAPEstimator.score`: sum `lg (predict_proba word)` over the list,
then divide by its length; on an empty list the final division
`total_log_proba / len(word_list)` is `0.0 / 0`, which raises
`ZeroDivisionError` in Python. -/
def MAPEstimator.score (est : MAPEstimator) (lg : ℚ → ℚ) (word_list : List String) : Except MAPError ℚ :=
  match scoreLoop lg est word_list 0 with
  | .error e => .error e
  | .ok total =>
    if word_list.length = 0 then .error .zeroDivision
    else .ok (total / word_list.length)

/-- The vocabulary of the docstring example. -/
def dinoVocab : Vocabulary :=
  { words := ["dinosaur", "trex", "stegosaurus"], nodup := by decide }

/-- The training list of the docstring example. -/
def dinoList : List String := ["dinosaur", "trex", "dinosaur", "stegosaurus"]

/-- The docstring example estimator: `alpha = 2.0`, fitted on
`dinoList`. -/
def dinoEst : MAPEstimator := ((MAPEstimator.init dinoVocab 2).fit dinoList).1

/-- A two-word vocabulary used by several concrete instances. -/
def vocabAB : Vocabulary := { words := ["a", "b"], nodup := by decide }

/-- A one-word vocabulary used by several concrete instances. -/
def vocabA : Vocabulary := { words := ["a"], nodup := by decide }

/-! ### Basic facts about the vocabulary lookup and the counting loop -/

theorem lookupId_lt_length {ws : List String} {x : String} {i : Nat}
    (h : lookupId ws x = some i) : i < ws.length := by
  induction ws generalizing i with
  | nil => simp [lookupId] at h
  | cons w ws ih =>
    by_cases hw : w = x
    · rw [lookupId, if_pos hw] at h
      cases h
      simp
    · simp only [lookupId, if_neg hw, Option.map_eq_some'] at h
      obtain ⟨j, hj, rfl⟩ := h
      have := ih hj
      simp only [List.length_cons]
      omega

theorem lookupId_get {ws : List String} (hnd : ws.Nodup) (j : Nat) (hj : j < ws.length) :
    lookupId ws (ws.get ⟨j, hj⟩) = some j := by
  induction ws generalizing j with
  | nil => simp at hj
  | cons w ws ih =>
    rcases List.nodup_cons.mp hnd with ⟨hw, hnd⟩
    cases j with
    | zero => simp [lookupId]
    | succ j =>
      have hj2 : j < ws.length := by simpa using hj
      have hmem : ws.get ⟨j, hj2⟩ ∈ ws := List.get_mem ws j hj2
      have hget : (w :: ws).get ⟨j + 1, hj⟩ = ws.get ⟨j, hj2⟩ := rfl
      have hne : w ≠ (w :: ws).get ⟨j + 1, hj⟩ := by
        rw [hget]
        intro hEq
        exact hw (by rw [hEq]; exact hmem)
      simp only [lookupId, if_neg hne]
      rw [hget, ih hnd j hj2]
      rfl

theorem length_incAt (cv : List Nat) (i : Nat) : (incAt cv i).length = cv.length := by
  induction cv generalizing i with
  | nil => simp [incAt]
  | cons c cs ih =>
    cases i with
    | zero => simp [incAt]
    | succ i => simp [incAt, ih]

theorem sum_incAt (cv : List Nat) (i : Nat) (h : i < cv.length) :
    (incAt cv i).sum = cv.sum + 1 := by
  induction cv generalizing i with
  | nil => simp at h
  | cons c cs ih =>
    cases i with
    | zero => simp [incAt]; omega
    | succ i =>
      have hi : i < cs.length := by simpa using h
      simp [incAt, ih i hi]
      omega

theorem fitLoop_ok (vocab : Vocabulary) (L : List String) (cv : List Nat) (tc : Nat)
    (h : ∀ w ∈ L, (vocab.get_word_id w).isSome)
    (hlen : cv.length = vocab.words.length) :
    (fitLoop vocab L cv tc).2.2 = none ∧
    (fitLoop vocab L cv tc).2.1 = tc + L.length ∧
    (fitLoop vocab L cv tc).1.sum = cv.sum + L.length ∧
    (fitLoop vocab L cv tc).1.length = cv.length := by
  induction L generalizing cv tc with
  | nil => simp [fitLoop]
  | cons w ws ih =>
    obtain ⟨id, hid⟩ := Option.isSome_iff_exists.mp (h w (List.mem_cons_self w ws))
    have hidlt : id < cv.length := by
      rw [hlen]
      exact lookupId_lt_length hid
    have hlen2 : (incAt cv id).length = vocab.words.length := by
      rw [length_incAt, hlen]
    have hrest : ∀ x ∈ ws, (vocab.get_word_id x).isSome := fun x hx =>
      h x (List.mem_cons_of_mem w hx)
    obtain ⟨i1, i2, i3, i4⟩ := ih (incAt cv id) (tc + 1) hrest hlen2
    refine ⟨?_, ?_, ?_, ?_⟩ <;>
      simp only [fitLoop, hid] <;>
      simp [i1, i2, i3, i4, sum_incAt cv id hidlt, length_incAt] <;>
      omega

theorem fitLoop_abort (vocab : Vocabulary) (pre : List String) (bad : String)
    (rest : List String) (cv : List Nat) (tc : Nat)
    (hpre : ∀ w ∈ pre, (vocab.get_word_id w).isSome)
    (hbad : vocab.get_word_id bad = none)
    (hlen : cv.length = vocab.words.length) :
    (fitLoop vocab (pre ++ bad :: rest) cv tc).2.2 = some .unknownWord ∧
    (fitLoop vocab (pre ++ bad :: rest) cv tc).2.1 = tc + pre.length + 1 ∧
    (fitLoop vocab (pre ++ bad :: rest) cv tc).1.sum = cv.sum + pre.length := by
  induction pre generalizing cv tc with
  | nil => simp [fitLoop, hbad]
  | cons w ws ih =>
    obtain ⟨id, hid⟩ := Option.isSome_iff_exists.mp (hpre w (List.mem_cons_self w ws))
    have hidlt : id < cv.length := by
      rw [hlen]
      exact lookupId_lt_length hid
    have hlen2 : (incAt cv id).length = vocab.words.length := by
      rw [length_incAt, hlen]
    have hrest : ∀ x ∈ ws, (vocab.get_word_id x).isSome := fun x hx =>
      hpre x (List.mem_cons_of_mem w hx)
    obtain ⟨i1, i2, i3⟩ := ih (incAt cv id) (tc + 1) hrest hlen2
    refine ⟨?_, ?_, ?_⟩ <;>
      simp only [List.cons_append, fitLoop, hid] <;>
      simp [i1, i2, i3, sum_incAt cv id hidlt] <;>
      omega

/-- C2. For every word list whose words are all in the vocabulary, `fit`
succeeds and afterwards `sum(count_V) = len(L) = total_count`, with
`count_V` holding exactly `vocab.size` entries. -/
theorem fit_count_conservation (est : MAPEstimator) (L : List String)
    (h : ∀ w ∈ L, (est.vocab.get_word_id w).isSome) :
    (est.fit L).2 = none ∧
    ∃ cv, (est.fit L).1.count_V = some cv ∧ cv.sum = L.length ∧
      (est.fit L).1.total_count = L.length ∧ cv.length = est.vocab.size := by
  have hlen : (List.replicate est.vocab.size 0).length = est.vocab.words.length := by
    simp [Vocabulary.size]
  obtain ⟨h1, h2, h3, h4⟩ := fitLoop_ok est.vocab L (List.replicate est.vocab.size 0) 0 h hlen
  refine ⟨?_, (fitLoop est.vocab L (List.replicate est.vocab.size 0) 0).1, ?_, ?_, ?_, ?_⟩
  · simpa [MAPEstimator.fit] using h1
  · simp [MAPEstimator.fit]
  · simpa using h3
  · simpa [MAPEstimator.fit] using h2
  · rw [h4]
    simp [Vocabulary.size]

/-- Witness for C2 at the docstring example: fitting
`[dinosaur, trex, dinosaur, stegosaurus]` succeeds with
`sum(count_V) = total_count = 4` and three count slots. -/
theorem fit_count_conservation_case :
    ((MAPEstimator.init dinoVocab 2).fit dinoList).2 = none ∧
    ∃ cv, ((MAPEstimator.init dinoVocab 2).fit dinoList).1.count_V = some cv ∧
      cv.sum = dinoList.length ∧
      ((MAPEstimator.init dinoVocab 2).fit dinoList).1.total_count = dinoList.length ∧
      cv.length = (MAPEstimator.init dinoVocab 2).vocab.size :=
  fit_count_conservation (MAPEstimator.init dinoVocab 2) dinoList (by decide)

/-- C8. Fitting twice is the same as fitting once with the second list:
`fit` rebuilds `count_V` and `total_count` from scratch, so the prior
fitted state is fully replaced. -/
theorem fit_overwrites (est : MAPEstimator) (L1 L2 : List String) :
    ((est.fit L1).1).fit L2 = est.fit L2 := rfl

/-- C10. `fit` is not atomic on error: on a list whose first `k` words
resolve and whose next word does not, it raises the word-not-found error
with `total_count = k + 1` but `sum(count_V) = k`, breaking the
`sum(count_V) = total_count` invariant. -/
theorem fit_not_atomic (est : MAPEstimator) (pre : List String) (bad : String)
    (rest : List String)
    (hpre : ∀ w ∈ pre, (est.vocab.get_word_id w).isSome)
    (hbad : est.vocab.get_word_id bad = none) :
    (est.fit (pre ++ bad :: rest)).2 = some .unknownWord ∧
    (est.fit (pre ++ bad :: rest)).1.total_count = pre.length + 1 ∧
    ∃ cv, (est.fit (pre ++ bad :: rest)).1.count_V = some cv ∧ cv.sum = pre.length ∧
      cv.sum ≠ (est.fit (pre ++ bad :: rest)).1.total_count := by
  have hlen : (List.replicate est.vocab.size 0).length = est.vocab.words.length := by
    simp [Vocabulary.size]
  obtain ⟨h1, h2, h3⟩ :=
    fitLoop_abort est.vocab pre bad rest (List.replicate est.vocab.size 0) 0 hpre hbad hlen
  have hT : (est.fit (pre ++ bad :: rest)).1.total_count = pre.length + 1 := by
    have : (est.fit (pre ++ bad :: rest)).1.total_count =
        (fitLoop est.vocab (pre ++ bad :: rest) (List.replicate est.vocab.size 0) 0).2.1 := rfl
    rw [this, h2]
    omega
  have hS : (fitLoop est.vocab (pre ++ bad :: rest)
      (List.replicate est.vocab.size 0) 0).1.sum = pre.length := by
    simpa using h3
  refine ⟨?_, hT, (fitLoop est.vocab (pre ++ bad :: rest) (List.replicate est.vocab.size 0) 0).1,
    ?_, hS, ?_⟩
  · simpa [MAPEstimator.fit] using h1
  · simp [MAPEstimator.fit]
  · rw [hS, hT]
    omega

/-- Witness for C10: fitting `["dinosaur", "zzz", "trex"]` fails on the
unknown word `zzz` and leaves `total_count = 2` with `sum(count_V) = 1`. -/
theorem fit_not_atomic_case :
    ((MAPEstimator.init dinoVocab 2).fit (["dinosaur"] ++ "zzz" :: ["trex"])).2 =
      some .unknownWord ∧
    ((MAPEstimator.init dinoVocab 2).fit (["dinosaur"] ++ "zzz" :: ["trex"])).1.total_count =
      ["dinosaur"].length + 1 ∧
    ∃ cv, ((MAPEstimator.init dinoVocab 2).fit
        (["dinosaur"] ++ "zzz" :: ["trex"])).1.count_V = some cv ∧
      cv.sum = ["dinosaur"].length ∧
      cv.sum ≠ ((MAPEstimator.init dinoVocab 2).fit
        (["dinosaur"] ++ "zzz" :: ["trex"])).1.total_count :=
  fit_not_atomic (MAPEstimator.init dinoVocab 2) ["dinosaur"] "zzz" ["trex"]
    (by decide) (by decide)

/-! ### Evaluating `predict_proba` -/

theorem predict_proba_eval (est : MAPEstimator) (cv : List Nat) (w : String) (id : Nat)
    (hcv : est.count_V = some cv)
    (hmap : (cv.filter (fun i => 0 < i)).length = est.vocab.size ∨ 1 < est.alpha)
    (hid : est.vocab.get_word_id w = some id) :
    est.predict_proba w = .ok ((cv.getD id 0 + est.alpha - 1) /
      (est.total_count + est.vocab.size * (est.alpha - 1))) := by
  simp only [MAPEstimator.predict_proba, hcv, hid, if_pos hmap]

theorem dinoEst_alpha : dinoEst.alpha = 2 := rfl

theorem dinoEst_total_count : dinoEst.total_count = 4 := rfl

theorem dinoEst_size : dinoEst.vocab.size = 3 := rfl

/-- C1. `predict_proba` returns
`(count_V[id(w)] + alpha - 1) / (total_count + vocab.size * (alpha - 1))`
for every fitted estimator and vocabulary word; in particular the
docstring example yields `predict_proba('dinosaur') = 3/7`. -/
theorem predict_proba_map_formula :
    (∀ (est : MAPEstimator) (cv : List Nat) (w : String) (id : Nat),
      est.count_V = some cv →
      ((cv.filter (fun i => 0 < i)).length = est.vocab.size ∨ 1 < est.alpha) →
      est.vocab.get_word_id w = some id →
      est.predict_proba w = .ok ((cv.getD id 0 + est.alpha - 1) /
        (est.total_count + est.vocab.size * (est.alpha - 1)))) ∧
    dinoEst.predict_proba "dinosaur" = .ok (3 / 7) := by
  constructor
  · exact fun est cv w id hcv hmap hid => predict_proba_eval est cv w id hcv hmap hid
  · have h := predict_proba_eval dinoEst [2, 1, 1] "dinosaur" 0 (by decide)
      (Or.inl (by decide)) (by decide)
    rw [h]
    congr 1
    rw [dinoEst_alpha, dinoEst_total_count, dinoEst_size]
    norm_num

/-- Witness for C1 at a second concrete input: the docstring example
gives `predict_proba('trex') = 2/7`. -/
theorem predict_proba_map_formula_case : dinoEst.predict_proba "trex" = .ok (2 / 7) := by
  have h := predict_proba_map_formula.1 dinoEst [2, 1, 1] "trex" 1 (by decide)
    (Or.inl (by decide)) (by decide)
  rw [h]
  congr 1
  rw [dinoEst_alpha, dinoEst_total_count, dinoEst_size]
  norm_num

/-- An estimator whose fitted counts do not cover its one-word vocabulary
and whose `alpha` is 1: the MAP existence condition fails. -/
def c5Est : MAPEstimator := ((MAPEstimator.init vocabA 1).fit []).1

/-- C5 counterexample: for the word `b`, absent from `c5Est`'s
vocabulary, `predict_proba` raises the invalid-MAP-hyperparameter error,
not the unknown-word error — the MAP existence check precedes the word
lookup. -/
theorem unknown_word_shadowed :
    c5Est.vocab.get_word_id "b" = none ∧
    c5Est.predict_proba "b" = .error .invalidMAP ∧
    (Except.error .invalidMAP : Except MAPError ℚ) ≠ .error .unknownWord := by
  exact ⟨by decide, by decide, by decide⟩

/-- C5 (amended). For every word absent from the vocabulary,
`predict_proba` raises the unknown-word error, provided the estimator is
fitted and the MAP existence condition holds (otherwise the
invalid-hyperparameter error is raised first). -/
theorem unknown_word_raises (est : MAPEstimator) (cv : List Nat) (w : String)
    (hcv : est.count_V = some cv)
    (hmap : (cv.filter (fun i => 0 < i)).length = est.vocab.size ∨ 1 < est.alpha)
    (hw : est.vocab.get_word_id w = none) :
    est.predict_proba w = .error .unknownWord := by
  simp only [MAPEstimator.predict_proba, hcv, hw, if_pos hmap]

/-- Witness for C5 (amended) at the docstring example's unknown word. -/
theorem unknown_word_raises_case :
    dinoEst.predict_proba "never_seen-before" = .error .unknownWord :=
  unknown_word_raises dinoEst [2, 1, 1] "never_seen-before" (by decide)
    (Or.inl (by decide)) (by decide)

/-! ### The `alpha = 1` boundary -/

theorem length_filter_pos_lt (cv : List Nat) (h : 0 ∈ cv) :
    (cv.filter (fun i => 0 < i)).length < cv.length := by
  induction cv with
  | nil => simp at h
  | cons c cs ih =>
    have hle := List.length_filter_le (fun i => decide (0 < i)) cs
    rcases List.mem_cons.mp h with hc | hc
    · rw [List.filter_cons, if_neg (by simp [← hc])]
      simp only [List.length_cons]
      omega
    · rw [List.filter_cons]
      by_cases hcp : 0 < c
      · rw [if_pos (by simpa using hcp)]
        simpa using ih hc
      · rw [if_neg (by simpa using hcp)]
        have := ih hc
        simp only [List.length_cons]
        omega

theorem filter_pos_of_all (cv : List Nat) (h : ∀ c ∈ cv, 0 < c) :
    cv.filter (fun i => 0 < i) = cv :=
  List.filter_eq_self.mpr (fun a ha => by simpa using h a ha)

/-- C4. With `alpha = 1`: if some vocabulary slot has count zero,
`predict_proba` raises the invalid-MAP-hyperparameter error on every
query word; if every slot is positive, `predict_proba` succeeds on every
vocabulary word. -/
theorem alpha_one_boundary :
    (∀ (est : MAPEstimator) (cv : List Nat),
      est.alpha = 1 → est.count_V = some cv → cv.length = est.vocab.size → 0 ∈ cv →
      ∀ w, est.predict_proba w = .error .invalidMAP) ∧
    (∀ (est : MAPEstimator) (cv : List Nat) (w : String) (id : Nat),
      est.alpha = 1 → est.count_V = some cv → cv.length = est.vocab.size →
      (∀ c ∈ cv, 0 < c) → est.vocab.get_word_id w = some id →
      ∃ p, est.predict_proba w = .ok p) := by
  constructor
  · intro est cv ha hcv hlen hz w
    have hlt := length_filter_pos_lt cv hz
    have hcond : ¬((cv.filter (fun i => 0 < i)).length = est.vocab.size ∨ 1 < est.alpha) := by
      rintro (hfl | hgt)
      · omega
      · rw [ha] at hgt
        exact lt_irrefl 1 hgt
    simp only [MAPEstimator.predict_proba, hcv, if_neg hcond]
  · intro est cv w id ha hcv hlen hall hid
    have hcond : (cv.filter (fun i => 0 < i)).length = est.vocab.size ∨ 1 < est.alpha :=
      Or.inl (by rw [filter_pos_of_all cv hall, hlen])
    exact ⟨_, predict_proba_eval est cv w id hcv hcond hid⟩

/-- A fitted estimator with `alpha = 1` and the vocabulary word `b`
unseen. -/
def unseenEst : MAPEstimator := ((MAPEstimator.init vocabAB 1).fit ["a"]).1

/-- A fitted estimator with `alpha = 1` and every vocabulary word seen. -/
def seenEst : MAPEstimator := ((MAPEstimator.init vocabAB 1).fit ["a", "b"]).1

/-- Witness for C4: with `alpha = 1`, `predict_proba` fails on the
partially covered corpus and succeeds on the fully covered one. -/
theorem alpha_one_boundary_case :
    unseenEst.predict_proba "a" = .error .invalidMAP ∧
    ∃ p, seenEst.predict_proba "a" = .ok p :=
  ⟨alpha_one_boundary.1 unseenEst [1, 0] rfl (by decide) (by decide) (by decide) "a",
   alpha_one_boundary.2 seenEst [1, 1] "a" 0 rfl (by decide) (by decide) (by decide) (by decide)⟩

/-- C6. `score` on an empty word list reaches the final division with a
zero divisor: the code raises `ZeroDivisionError`
(`total_log_proba / len(word_list)` with `len = 0`) instead of a
dedicated empty-input error. -/
theorem score_empty_zero_division (est : MAPEstimator) (lg : ℚ → ℚ) :
    est.score lg [] = .error .zeroDivision := rfl

/-! ### Scoring -/

theorem predict_proba_ok_probaOf (est : MAPEstimator) (cv : List Nat) (w : String)
    (hcv : est.count_V = some cv)
    (hmap : (cv.filter (fun i => 0 < i)).length = est.vocab.size ∨ 1 < est.alpha)
    (hw : (est.vocab.get_word_id w).isSome) :
    est.predict_proba w = .ok (probaOf est w) := by
  obtain ⟨id, hid⟩ := Option.isSome_iff_exists.mp hw
  have h := predict_proba_eval est cv w id hcv hmap hid
  simp only [probaOf, h]

theorem scoreLoop_ok (lg : ℚ → ℚ) (est : MAPEstimator) (L : List String) (acc : ℚ)
    (hok : ∀ w ∈ L, est.predict_proba w = .ok (probaOf est w)) :
    scoreLoop lg est L acc = .ok (acc + (L.map (fun w => lg (probaOf est w))).sum) := by
  induction L generalizing acc with
  | nil => simp [scoreLoop]
  | cons w ws ih =>
    have hw := hok w (List.mem_cons_self w ws)
    simp only [scoreLoop, hw]
    rw [ih (acc + lg (probaOf est w)) (fun x hx => hok x (List.mem_cons_of_mem w hx))]
    simp only [List.map_cons, List.sum_cons]
    ring_nf

/-- C7. For a non-empty word list of vocabulary words and a fitted
estimator satisfying the MAP existence condition, `score` returns the
arithmetic mean of `lg (predict_proba w)` over the list (for the
abstracted logarithm `lg`): the loop's running sum divided by the list
length equals the independently computed map-sum-mean. -/
theorem score_is_mean_log (lg : ℚ → ℚ) (est : MAPEstimator) (cv : List Nat) (L : List String)
    (hne : L ≠ [])
    (hcv : est.count_V = some cv)
    (hmap : (cv.filter (fun i => 0 < i)).length = est.vocab.size ∨ 1 < est.alpha)
    (hvoc : ∀ w ∈ L, (est.vocab.get_word_id w).isSome) :
    est.score lg L = .ok ((L.map (fun w => lg (probaOf est w))).sum / L.length) := by
  have hok : ∀ w ∈ L, est.predict_proba w = .ok (probaOf est w) := fun w hw =>
    predict_proba_ok_probaOf est cv w hcv hmap (hvoc w hw)
  have hlen : ¬(L.length = 0) := by
    simpa [List.length_eq_zero] using hne
  simp only [MAPEstimator.score, scoreLoop_ok lg est L 0 hok, if_neg hlen]
  rw [zero_add]

theorem probaOf_dino_trex : probaOf dinoEst "trex" = 2 / 7 := by
  have h := predict_proba_eval dinoEst [2, 1, 1] "trex" 1 (by decide)
    (Or.inl (by decide)) (by decide)
  simp only [probaOf, h]
  rw [dinoEst_alpha, dinoEst_total_count, dinoEst_size]
  norm_num

theorem probaOf_dino_dinosaur : probaOf dinoEst "dinosaur" = 3 / 7 := by
  have h := predict_proba_eval dinoEst [2, 1, 1] "dinosaur" 0 (by decide)
    (Or.inl (by decide)) (by decide)
  simp only [probaOf, h]
  rw [dinoEst_alpha, dinoEst_total_count, dinoEst_size]
  norm_num

/-- Witness for C7: on `["trex", "dinosaur"]` the docstring example
scores `(lg(2/7) + lg(3/7)) / 2`, here with `lg` the identity:
`(2/7 + 3/7) / 2 = 5/14`. -/
theorem score_is_mean_log_case :
    dinoEst.score (fun q => q) ["trex", "dinosaur"] = .ok (5 / 14) := by
  have h := score_is_mean_log (fun q => q) dinoEst [2, 1, 1] ["trex", "dinosaur"]
    (by decide) (by decide) (Or.inl (by decide)) (by decide)
  rw [h]
  congr 1
  simp only [List.map_cons, List.map_nil, List.sum_cons, List.sum_nil,
    probaOf_dino_trex, probaOf_dino_dinosaur, List.length_cons, List.length_nil]
  norm_num

/-! ### Normalization of the probabilities over the vocabulary -/

theorem sum_range_getD (cs : List Nat) (f : Nat → ℚ) :
    ((List.range cs.length).map (fun j => f (cs.getD j 0))).sum = (cs.map f).sum := by
  induction cs with
  | nil => simp
  | cons c cs ih =>
    rw [List.length_cons, List.range_succ_eq_map]
    simp only [List.map_cons, List.map_map, List.sum_cons]
    have hcomp : ((fun j => f ((c :: cs).getD j 0)) ∘ Nat.succ) =
        (fun j => f (cs.getD j 0)) := by
      funext j
      rfl
    rw [hcomp, ih]
    rfl

theorem sum_map_shift_div (cs : List Nat) (b D : ℚ) :
    (cs.map (fun c : Nat => ((c : ℚ) + b) / D)).sum = ((cs.sum : ℚ) + cs.length * b) / D := by
  induction cs with
  | nil => simp
  | cons c cs ih =>
    rw [List.map_cons, List.sum_cons, ih, div_add_div_same]
    congr 1
    simp only [List.sum_cons, List.length_cons]
    push_cast
    ring

theorem map_probaOf (est : MAPEstimator) (cv : List Nat)
    (hcv : est.count_V = some cv)
    (hlen : cv.length = est.vocab.size)
    (hmap : (cv.filter (fun i => 0 < i)).length = est.vocab.size ∨ 1 < est.alpha) :
    est.vocab.words.map (probaOf est) =
      (List.range cv.length).map (fun j => ((cv.getD j 0 : ℚ) + est.alpha - 1) /
        (est.total_count + est.vocab.size * (est.alpha - 1))) := by
  apply List.ext_getElem
  · simp only [List.length_map, List.length_range]
    rw [hlen]
    rfl
  · intro n h1 h2
    have hn : n < est.vocab.words.length := by simpa using h1
    have hid : est.vocab.get_word_id (est.vocab.words.get ⟨n, hn⟩) = some n :=
      lookupId_get est.vocab.nodup n hn
    have h := predict_proba_eval est cv (est.vocab.words.get ⟨n, hn⟩) n hcv hmap hid
    simp only [List.getElem_map, List.getElem_range]
    have hw : est.vocab.words[n] = est.vocab.words.get ⟨n, hn⟩ := rfl
    rw [hw]
    simp only [probaOf, h]

/-- An estimator over the empty vocabulary, fitted on the empty list. -/
def emptyVocab : Vocabulary := { words := [], nodup := List.nodup_nil }

/-- The empty-vocabulary estimator fitted on the empty corpus. -/
def emptyEst : MAPEstimator := ((MAPEstimator.init emptyVocab 2).fit []).1

/-- C3 counterexample: the empty-vocabulary estimator is successfully
fitted and satisfies the MAP existence condition (vacuously, all of its
zero count slots are positive), yet the probabilities over its (empty)
vocabulary sum to 0, not 1 — here the normalizing denominator
`total_count + size * (alpha - 1)` is 0. -/
theorem sum_predict_proba_counterexample :
    ((MAPEstimator.init emptyVocab 2).fit []).2 = none ∧
    emptyEst.count_V = some [] ∧
    (([] : List Nat).filter (fun i => 0 < i)).length = emptyEst.vocab.size ∧
    (emptyEst.total_count : ℚ) + emptyEst.vocab.size * (emptyEst.alpha - 1) = 0 ∧
    (emptyEst.vocab.words.map (probaOf emptyEst)).sum ≠ 1 := by
  refine ⟨rfl, rfl, rfl, ?_, ?_⟩
  · have ht : emptyEst.total_count = 0 := rfl
    have hs : emptyEst.vocab.size = 0 := rfl
    rw [ht, hs]
    norm_num
  · have hw : emptyEst.vocab.words = [] := rfl
    rw [hw]
    norm_num

/-- C3 (amended). For a fitted estimator satisfying the MAP existence
condition whose normalizing denominator
`total_count + vocab.size * (alpha - 1)` is nonzero, the probabilities
`predict_proba` assigns to the vocabulary words sum to exactly 1. -/
theorem sum_predict_proba_one (est : MAPEstimator) (cv : List Nat)
    (hcv : est.count_V = some cv)
    (hsum : cv.sum = est.total_count)
    (hlen : cv.length = est.vocab.size)
    (hmap : (cv.filter (fun i => 0 < i)).length = est.vocab.size ∨ 1 < est.alpha)
    (hD : (est.total_count : ℚ) + est.vocab.size * (est.alpha - 1) ≠ 0) :
    (est.vocab.words.map (probaOf est)).sum = 1 := by
  rw [map_probaOf est cv hcv hlen hmap]
  have hshape : (fun j => ((cv.getD j 0 : ℚ) + est.alpha - 1) /
      (est.total_count + est.vocab.size * (est.alpha - 1))) =
      (fun j => (fun c : Nat => ((c : ℚ) + (est.alpha - 1)) /
        (est.total_count + est.vocab.size * (est.alpha - 1))) (cv.getD j 0)) := by
    funext j
    rw [add_sub_assoc]
  have hsr := sum_range_getD cv (fun c : Nat => ((c : ℚ) + (est.alpha - 1)) /
    (est.total_count + est.vocab.size * (est.alpha - 1)))
  have hsd := sum_map_shift_div cv (est.alpha - 1)
    (est.total_count + est.vocab.size * (est.alpha - 1))
  rw [hshape, hsr, hsd]
  have hnum : (cv.sum : ℚ) + cv.length * (est.alpha - 1) =
      (est.total_count : ℚ) + est.vocab.size * (est.alpha - 1) := by
    rw [hsum, hlen]
  rw [hnum]
  exact div_self hD

/-- Witness for C3 (amended) at the docstring example:
`3/7 + 2/7 + 2/7 = 1`. -/
theorem sum_predict_proba_one_case :
    (dinoEst.vocab.words.map (probaOf dinoEst)).sum = 1 :=
  sum_predict_proba_one dinoEst [2, 1, 1] (by decide) (by decide) (by decide)
    (Or.inl (by decide))
    (by rw [dinoEst_alpha, dinoEst_total_count, dinoEst_size]; norm_num)

theorem dinoEst_predict_dinosaur : dinoEst.predict_proba "dinosaur" = .ok (3 / 7) := by
  have h := predict_proba_eval dinoEst [2, 1, 1] "dinosaur" 0 (by decide)
    (Or.inl (by decide)) (by decide)
  rw [h]
  congr 1
  rw [dinoEst_alpha, dinoEst_total_count, dinoEst_size]
  norm_num

/-! ### Range of the returned probability -/

theorem getD_le_sum (cv : List Nat) (i : Nat) : cv.getD i 0 ≤ cv.sum := by
  induction cv generalizing i with
  | nil => simp [List.getD]
  | cons c cs ih =>
    cases i with
    | zero =>
      simp only [List.getD_cons_zero, List.sum_cons]
      omega
    | succ i =>
      have := ih i
      simp only [List.getD_cons_succ, List.sum_cons]
      omega

theorem length_le_sum_of_pos (cv : List Nat) (h : ∀ c ∈ cv, 0 < c) :
    cv.length ≤ cv.sum := by
  induction cv with
  | nil => simp
  | cons c cs ih =>
    have hc := h c (List.mem_cons_self c cs)
    have := ih (fun x hx => h x (List.mem_cons_of_mem c hx))
    simp only [List.length_cons, List.sum_cons]
    omega

theorem all_pos_of_filter_length (cv : List Nat)
    (h : (cv.filter (fun i => 0 < i)).length = cv.length) :
    ∀ c ∈ cv, 0 < c := by
  intro c hc
  by_contra hc0
  have hz : 0 ∈ cv := by
    have : c = 0 := by omega
    rw [← this]
    exact hc
  have := length_filter_pos_lt cv hz
  omega

/-- C9 (amended). For a fitted estimator with `alpha ≥ 1` (the range the
class docstring requires) satisfying the MAP existence condition, the
probability `predict_proba` returns lies in `[0, 1]`, with no clamping
in the formula. -/
theorem predict_proba_in_unit (est : MAPEstimator) (cv : List Nat) (w : String)
    (id : Nat) (p : ℚ)
    (hcv : est.count_V = some cv)
    (hsum : cv.sum = est.total_count)
    (hlen : cv.length = est.vocab.size)
    (halpha : 1 ≤ est.alpha)
    (hmap : (cv.filter (fun i => 0 < i)).length = est.vocab.size ∨ 1 < est.alpha)
    (hid : est.vocab.get_word_id w = some id)
    (hp : est.predict_proba w = .ok p) :
    0 ≤ p ∧ p ≤ 1 := by
  have heval := predict_proba_eval est cv w id hcv hmap hid
  rw [heval] at hp
  have hpv : p = (cv.getD id 0 + est.alpha - 1) /
      (est.total_count + est.vocab.size * (est.alpha - 1)) := by
    cases hp
    rfl
  have hidlt : id < cv.length := by
    rw [hlen]
    exact lookupId_lt_length hid
  have hc_le : (cv.getD id 0 : ℚ) ≤ (est.total_count : ℚ) := by
    rw [← hsum]
    exact_mod_cast getD_le_sum cv id
  have hc0 : (0 : ℚ) ≤ (cv.getD id 0 : ℚ) := by positivity
  have hN0 : (0 : ℚ) ≤ (est.total_count : ℚ) := by positivity
  have hV1 : (1 : ℚ) ≤ (est.vocab.size : ℚ) := by
    have : 1 ≤ est.vocab.size := by omega
    exact_mod_cast this
  rcases eq_or_lt_of_le halpha with heq | hgt
  · -- alpha = 1: the denominator is total_count and every count is positive
    have hall : ∀ c ∈ cv, 0 < c := by
      rcases hmap with hfl | hgt1
      · exact all_pos_of_filter_length cv (by rw [hfl, ← hlen])
      · rw [← heq] at hgt1
        exact absurd hgt1 (lt_irrefl 1)
    have hNpos : (0 : ℚ) < (est.total_count : ℚ) := by
      have h1 : cv.length ≤ cv.sum := length_le_sum_of_pos cv hall
      have h2 : 1 ≤ est.total_count := by omega
      exact_mod_cast Nat.lt_of_lt_of_le Nat.zero_lt_one h2
    rw [hpv, ← heq]
    have hnum : ((cv.getD id 0 : ℚ) + 1 - 1 : ℚ) = (cv.getD id 0 : ℚ) := by ring
    have hden : ((est.total_count : ℚ) + (est.vocab.size : ℚ) * (1 - 1) : ℚ) =
        (est.total_count : ℚ) := by ring
    rw [hnum, hden]
    constructor
    · exact div_nonneg hc0 hNpos.le
    · rw [div_le_one hNpos]
      exact hc_le
  · -- alpha > 1: every pseudo-count is strictly positive
    have hb : (0 : ℚ) < est.alpha - 1 := by linarith
    have hDpos : (0 : ℚ) < (est.total_count : ℚ) +
        (est.vocab.size : ℚ) * (est.alpha - 1) := by
      nlinarith
    rw [hpv]
    constructor
    · apply div_nonneg _ hDpos.le
      linarith
    · rw [div_le_one hDpos]
      nlinarith

/-- Witness for C9 (amended) at the docstring example:
`predict_proba('dinosaur') = 3/7 ∈ [0, 1]`. -/
theorem predict_proba_in_unit_case : (0 : ℚ) ≤ 3 / 7 ∧ (3 / 7 : ℚ) ≤ 1 :=
  predict_proba_in_unit dinoEst [2, 1, 1] "dinosaur" 0 (3 / 7) (by decide) (by decide)
    (by decide) (by rw [dinoEst_alpha]; norm_num) (Or.inl (by decide)) (by decide)
    dinoEst_predict_dinosaur

/-- An estimator with `alpha = -1/2`, a value the constructor accepts
without validation, fitted on a corpus covering its whole vocabulary. -/
def negAlphaEst : MAPEstimator :=
  ((MAPEstimator.init vocabAB (-(1 / 2))).fit ["a", "b", "b", "b"]).1

/-- C9 counterexample: `negAlphaEst` is fitted, every vocabulary word is
seen (so the MAP existence condition holds), yet
`predict_proba('a') = (1 - 1/2 - 1) / (4 + 2 * (-1/2 - 1)) = -1/2 < 0`. -/
theorem predict_proba_negative :
    negAlphaEst.count_V = some [1, 3] ∧
    (([1, 3] : List Nat).filter (fun i => 0 < i)).length = negAlphaEst.vocab.size ∧
    negAlphaEst.predict_proba "a" = .ok (-(1 / 2)) ∧
    (-(1 / 2) : ℚ) < 0 := by
  refine ⟨by decide, by decide, ?_, by norm_num⟩
  have h := predict_proba_eval negAlphaEst [1, 3] "a" 0 (by decide)
    (Or.inl (by decide)) (by decide)
  rw [h]
  congr 1
  have ha : negAlphaEst.alpha = -(1 / 2) := rfl
  have ht : negAlphaEst.total_count = 4 := rfl
  have hs : negAlphaEst.vocab.size = 2 := rfl
  rw [ha, ht, hs]
  norm_num

end MAPSpec
